import Mathlib

/-!
Verification of the import-content-type plugin service
(`src/plugins/import-content-type/server/src/services/service.ts`).

The service operates on arbitrary JSON values.  We embed JS runtime values
as a tagged union `Value` (null, boolean, number, string, array, object),
with arrays and objects as the two "object-typed" variants, matching the
`typeof x === 'object'` / `Array.isArray` discrimination used by the code.
Host collaborators (the WHATWG URL parser, the network, the media-upload
pipeline, the content store) are passed in explicitly as parameters, so the
service functions become pure and total.
-/

namespace ImportPlugin

mutual

inductive Value where
  | vnull : Value
  | vbool : Bool → Value
  | vnum : Int → Value
  | vstr : String → Value
  | varr : VList → Value
  | vobj : VFields → Value
deriving DecidableEq

inductive VList where
  | nil : VList
  | cons : Value → VList → VList
deriving DecidableEq

inductive VFields where
  | nil : VFields
  | cons : String → Value → VFields → VFields
deriving DecidableEq

end

/-- JS truthiness on our value model: `null`, `false`, `0` and `""` are
falsy; every array and object (even empty) is truthy. -/
def falsy : Value → Bool
  | Value.vnull => true
  | Value.vbool b => !b
  | Value.vnum n => n == 0
  | Value.vstr s => s.isEmpty
  | _ => false

/-- First-occurrence property lookup (JS `obj[key]` / `'key' in obj`). -/
def VFields.lookup : VFields → String → Option Value
  | VFields.nil, _ => none
  | VFields.cons k v tl, key => if k = key then some v else tl.lookup key

/-- `l.any p` on our array model. -/
def VList.anyP : VList → (Value → Bool) → Bool
  | VList.nil, _ => false
  | VList.cons v tl, p => p v || tl.anyP p

def VList.isEmpty : VList → Bool
  | VList.nil => true
  | VList.cons _ _ => false

def VList.toList : VList → List Value
  | VList.nil => []
  | VList.cons v tl => v :: tl.toList

/-! ## URL classifier (service.ts lines 23-43)

`new URL(str)` is the platform WHATWG parser; we abstract it as a function
`String → Option ParsedUrl` and keep the classifier parametric in it, so the
theorems hold for every parser.  A small concrete parser `urlParseModel` is
provided for evaluating the classifier on concrete inputs. -/

/-- JS `String.prototype.toLowerCase`, modelled over the char sequence. -/
def jsToLower (s : String) : String :=
  String.mk (s.data.map Char.toLower)

/-- JS `String.prototype.endsWith`, modelled over the char sequence. -/
def jsEndsWith (s suffix : String) : Bool :=
  suffix.data.isSuffixOf s.data

/-- JS `String.prototype.startsWith`, modelled over the char sequence. -/
def jsStartsWith (s pre : String) : Bool :=
  pre.data.isPrefixOf s.data

structure ParsedUrl where
  scheme : String
  host : String
  pathname : String
deriving DecidableEq

/-- The type of an absolute-URL parser (the platform `new URL`). -/
def UrlParse : Type := String → Option ParsedUrl

/-- `isUrl` from the source: true iff `new URL(str)` does not throw. -/
def isUrl (parse : UrlParse) (str : String) : Bool :=
  (parse str).isSome

/-- The fixed image extension list from the source. -/
def imageExtensions : List String :=
  [".jpg", ".jpeg", ".png", ".gif", ".webp", ".svg", ".bmp"]

/-- `isImageUrl` from the source: false for non-URLs, otherwise checks
whether the lowercased pathname ends with one of `imageExtensions`. -/
def isImageUrl (parse : UrlParse) (url : String) : Bool :=
  if !(isUrl parse url) then false
  else
    match parse url with
    | some u => imageExtensions.any (fun ext => jsEndsWith (jsToLower u.pathname) ext)
    | none => false

/-- Splits a char sequence at the first occurrence of `://`. -/
def splitSchemeSep : List Char → Option (List Char × List Char)
  | [] => none
  | ':' :: '/' :: '/' :: rest => some ([], rest)
  | c :: rest => (splitSchemeSep rest).map (fun p => (c :: p.1, p.2))

/-- Modelled from the spec: the platform WHATWG URL parser (`new URL`),
which is not part of this repository, restricted to absolute URLs of the
form `scheme://host/path[?query][#fragment]`; the scheme is lowercased, the
query and fragment are not part of `pathname`, and an absent path is
normalised to `/`. -/
def urlParseModel : UrlParse := fun s =>
  match splitSchemeSep s.data with
  | some (schemeCs, restCs) =>
      if !schemeCs.isEmpty && schemeCs.all Char.isAlpha && !restCs.isEmpty then
        let host := restCs.takeWhile (fun c => !(c == '/'))
        let path := (restCs.drop host.length).takeWhile (fun c => !(c == '?') && !(c == '#'))
        some ⟨String.mk (schemeCs.map Char.toLower), String.mk host,
          String.mk (if path.isEmpty then ['/'] else path)⟩
      else none
  | none => none

/-! ## Record sanitizer (service.ts lines 469-512)

`sanitizeRecordBeforeCreate` walks the value depth-first; on objects it
deletes every key whose value is an object carrying a `connect` property
that is an empty array (first branch), or that is not an array or contains
a falsy element (second branch); every other object/array value is recursed
into, scalars are kept as-is. -/

/-- First deletion branch of the source: `value && typeof value === 'object'
&& 'connect' in value && Array.isArray(value.connect) && value.connect.length === 0`.
(`'connect' in value` is false on arrays, so only objects qualify.) -/
def connectEmpty (v : Value) : Bool :=
  match v with
  | Value.vobj fields =>
      match fields.lookup ("connect") with
      | some (Value.varr VList.nil) => true
      | _ => false
  | _ => false

/-- Second deletion branch of the source: `'connect' in value &&
(!Array.isArray(value.connect) || value.connect.some((id) => !id))`. -/
def connectMalformed (v : Value) : Bool :=
  match v with
  | Value.vobj fields =>
      match fields.lookup ("connect") with
      | some (Value.varr l) => l.anyP falsy
      | some _ => true
      | none => false
  | _ => false

mutual

def sanitizeRecordBeforeCreate : Value → Value
  | Value.varr items => Value.varr (sanitizeList items)
  | Value.vobj fields => Value.vobj (sanitizeFields fields)
  | v => v

def sanitizeList : VList → VList
  | VList.nil => VList.nil
  | VList.cons v tl => VList.cons (sanitizeRecordBeforeCreate v) (sanitizeList tl)

def sanitizeFields : VFields → VFields
  | VFields.nil => VFields.nil
  | VFields.cons k v tl =>
      if connectEmpty v then sanitizeFields tl
      else if connectMalformed v then sanitizeFields tl
      else
        match v with
        | Value.varr items => VFields.cons k (Value.varr (sanitizeList items)) (sanitizeFields tl)
        | Value.vobj fields => VFields.cons k (Value.vobj (sanitizeFields fields)) (sanitizeFields tl)
        | _ => VFields.cons k v (sanitizeFields tl)

end

/-! ## Object image resolver (service.ts lines 294-391)

The download+upload chain for one URL is abstracted as an oracle
`pipeline : String → Option Int`: `some id` means `downloadImage` produced
a descriptor with data and `uploadFileToStrapiMediaLibrary` returned a file
with a (truthy) id; `none` means any step of that chain failed. -/

/-- The replacement value written by the resolver: `{ connect: [id] }`. -/
def mediaRef (id : Int) : Value :=
  Value.vobj (VFields.cons ("connect") (Value.varr (VList.cons (Value.vnum id) VList.nil)) VFields.nil)

mutual

/-- `processObjectForImages`: scalars pass through (line 295), arrays map
element-wise, objects are copied with each property rewritten. -/
def processObjectForImages (parse : UrlParse) (pipeline : String → Option Int) : Value → Value
  | Value.varr items => Value.varr (processList parse pipeline items)
  | Value.vobj fields => Value.vobj (processFields parse pipeline fields)
  | v => v

def processList (parse : UrlParse) (pipeline : String → Option Int) : VList → VList
  | VList.nil => VList.nil
  | VList.cons v tl =>
      VList.cons (processObjectForImages parse pipeline v) (processList parse pipeline tl)

def processFields (parse : UrlParse) (pipeline : String → Option Int) : VFields → VFields
  | VFields.nil => VFields.nil
  | VFields.cons k v tl =>
      VFields.cons k (processEntry parse pipeline v) (processFields parse pipeline tl)

/-- The per-property body of the resolver loop: a string value that is an
image URL is resolved (kept on failure); an object value whose truthy `url`
string property is an image URL is resolved as a whole (kept on failure,
without recursing); any other object/array value is recursed into; other
scalars are left as-is. -/
def processEntry (parse : UrlParse) (pipeline : String → Option Int) : Value → Value
  | Value.vstr s =>
      if isImageUrl parse s then
        match pipeline s with
        | some id => mediaRef id
        | none => Value.vstr s
      else Value.vstr s
  | Value.varr items => Value.varr (processList parse pipeline items)
  | Value.vobj fields =>
      match fields.lookup ("url") with
      | some (Value.vstr s) =>
          if !s.isEmpty && isImageUrl parse s then
            match pipeline s with
            | some id => mediaRef id
            | none => Value.vobj fields
          else Value.vobj (processFields parse pipeline fields)
      | _ => Value.vobj (processFields parse pipeline fields)
  | v => v

end

/-! ## Image retriever (service.ts lines 50-127)

The axios transport is abstracted as a `NetBehavior` describing how the
network answered one GET: a transport-level error, or a response with an
elapsed time, HTTP status, body and declared content-type header.  Axios is
configured with `timeout: 15000`, `maxContentLength: 10 * 1024 * 1024` and
`validateStatus: status === 200`; each violation makes axios throw, which
the source catches and turns into `null`.  The random `uuidv4()` is passed
in as a parameter.  `downloadImage` then becomes a pure, total function
returning `Option FileData` — it can never throw. -/

inductive NetBehavior where
  | transportError : NetBehavior
  | respond (elapsedMs : Nat) (status : Nat) (body : List Nat) (contentType : Option String)
deriving DecidableEq

/-- `timeout: 15000` from the axios config. -/
def downloadTimeoutMs : Nat := 15000

/-- `maxContentLength: 10 * 1024 * 1024` from the axios config. -/
def downloadMaxBytes : Nat := 10 * 1024 * 1024

/-- Modelled from the spec: the axios GET (not part of this repository)
under the source's config — it yields the body and content-type header on
an in-time, in-size HTTP 200 response and throws (here: `none`) otherwise. -/
def axiosGetModel (net : NetBehavior) : Option (List Nat × Option String) :=
  match net with
  | NetBehavior.transportError => none
  | NetBehavior.respond elapsedMs status body contentType =>
      if downloadTimeoutMs < elapsedMs then none
      else if downloadMaxBytes < body.length then none
      else if status ≠ 200 then none
      else some (body, contentType)

/-- Modelled from the spec: Node `path.extname` (not part of this
repository) — the suffix of the last path segment from its last dot, empty
when there is no dot or the only dot leads the segment. -/
def extname (p : String) : String :=
  let rev := (p.data.reverse.takeWhile (fun c => !(c == '/')))
  let pre := rev.takeWhile (fun c => !(c == '.'))
  if pre.length = rev.length then ("")
  else if pre.length + 1 = rev.length then ("")
  else String.mk ('.' :: pre.reverse)

/-- Modelled from the spec: `mime.lookup` (not part of this repository)
restricted to the image extensions the service cares about; unknown
extensions yield `none`. -/
def mimeLookup (ext : String) : Option String :=
  match jsToLower ext with
  | ".jpg" => some ("image/jpeg")
  | ".jpeg" => some ("image/jpeg")
  | ".png" => some ("image/png")
  | ".gif" => some ("image/gif")
  | ".webp" => some ("image/webp")
  | ".svg" => some ("image/svg+xml")
  | ".bmp" => some ("image/bmp")
  | _ => none

/-- The descriptor returned by `downloadImage` on success. -/
structure FileData where
  data : List Nat
  name : String
  type : String
  size : Nat
deriving DecidableEq

/-- `downloadImage` from the source, with the platform pieces supplied as
parameters (`parse` for `new URL`, `uuid` for `uuidv4()`, `net` for the
axios transport). -/
def downloadImage (parse : UrlParse) (uuid : String) (net : NetBehavior)
    (url : String) : Option FileData :=
  if url.isEmpty then none
  else
    match parse url with
    | none => none
    | some u =>
        match axiosGetModel net with
        | none => none
        | some (body, contentType) =>
            if body.isEmpty then none
            else
              let extension := if extname u.pathname = "" then (".jpg") else extname u.pathname
              let filename := uuid ++ extension
              let mimeType := (mimeLookup extension).getD ("image/jpeg")
              match contentType with
              | some c =>
                  if !(jsStartsWith c ("image/")) then none
                  else some ⟨body, filename, mimeType, body.length⟩
              | none => some ⟨body, filename, mimeType, body.length⟩

/-! ## Batch import orchestrator (service.ts lines 399-462)

The content store is abstracted by `knownTypes` (which content-type ids
resolve to a schema) and by a per-record outcome oracle
`create : Nat → Option String`: `none` means resolving, sanitizing and
persisting the record at that global index succeeded, `some msg` means some
step threw with message `msg`.  The tally also logs, as ghost state, the
global indices of the records that were actually persisted. -/

structure ImportError where
  index : Nat
  message : String
deriving DecidableEq

structure ImportResult where
  contentType : String
  totalRecords : Nat
  successful : Nat
  failed : Nat
  errors : List ImportError
  processedImages : Nat
  skippedImages : Nat
deriving DecidableEq

structure Tally where
  successful : Nat
  failed : Nat
  errors : List ImportError
  created : List Nat
deriving DecidableEq

def Tally.init : Tally := ⟨0, 0, [], []⟩

/-- `const batchSize = 20;` from the source (with the comment
"Reduced batch size for better error handling"). -/
def batchSize : Nat := 20

/-- `Math.ceil(data.length / batchSize)`. -/
def numBatches (n : Nat) : Nat := (n + batchSize - 1) / batchSize

/-- `data.slice(start, end)` for batch `i`, with
`start = i * batchSize` and `end = min(start + batchSize, data.length)`. -/
def batchSlice (data : List Value) (i : Nat) : List Value :=
  (data.drop (i * batchSize)).take (min (i * batchSize + batchSize) data.length - i * batchSize)

/-- The batches the orchestrator loop walks through, in order. -/
def batchesOf (data : List Value) : List (List Value) :=
  (List.range (numBatches data.length)).map (fun i => batchSlice data i)

/-- The body of one record task: bump `successful` and log the persisted
index, or bump `failed` and append `{index: recordIndex, message}`. -/
def processRecord (create : Nat → Option String) (recordIndex : Nat) (t : Tally) : Tally :=
  match create recordIndex with
  | none =>
      { t with successful := t.successful + 1, created := t.created ++ [recordIndex] }
  | some msg =>
      { t with failed := t.failed + 1, errors := t.errors ++ [⟨recordIndex, msg⟩] }

/-- One batch: every record of the batch reaches a terminal outcome, at
global index `start + index`. -/
def processBatch (create : Nat → Option String) (start : Nat) (batch : List Value)
    (t : Tally) : Tally :=
  (List.range batch.length).foldl (fun acc idx => processRecord create (start + idx) acc) t

/-- The sequential batch loop of `importData`. -/
def runBatches (create : Nat → Option String) (data : List Value) : Tally :=
  (List.range (numBatches data.length)).foldl
    (fun t i => processBatch create (i * batchSize) (batchSlice data i) t) Tally.init

/-- `importData` from the source.  The precondition failures are the two
`throw new Error(...)` sites; a thrown error yields `Except.error` before
any batch is formed, so no record is processed and nothing is persisted
(the ghost `created` list exists only inside the `ok` payload). -/
def importData (knownTypes : String → Bool) (create : Nat → Option String)
    (contentType : String) (data : Value) : Except String (ImportResult × List Nat) :=
  match data with
  | Value.varr items =>
      if contentType.isEmpty then
        Except.error ("Invalid parameters: contentType and data array are required")
      else if !(knownTypes contentType) then
        Except.error ("Content type \"" ++ contentType ++ "\" not found")
      else
        let records := items.toList
        let t := runBatches create records
        Except.ok
          ({ contentType := contentType, totalRecords := records.length,
             successful := t.successful, failed := t.failed, errors := t.errors,
             processedImages := 0, skippedImages := 0 }, t.created)
  | _ => Except.error ("Invalid parameters: contentType and data array are required")

/-! ## Spec-side definitions

Definitions in this section are written from the words of the spec/claims
(not from the source) so that the source functions can be compared against
them. -/

/-- `typeof v !== 'object' || v === null`: a non-object, non-array scalar. -/
def isScalar : Value → Bool
  | Value.varr _ => false
  | Value.vobj _ => false
  | _ => true

/-- The removal test stated by the claim on the sanitizer: the value is
shaped `{connect: []}` or `{connect: [falsy,...]}` — an object whose
`connect` sequence is empty or contains a falsy element. -/
def claimBadConnect (v : Value) : Bool :=
  match v with
  | Value.vobj fields =>
      match fields.lookup ("connect") with
      | some (Value.varr l) => l.isEmpty || l.anyP falsy
      | _ => false
  | _ => false

/-- The amended removal test: additionally, an object whose `connect`
property is not an array at all is removed. -/
def amendedBadConnect (v : Value) : Bool :=
  match v with
  | Value.vobj fields =>
      match fields.lookup ("connect") with
      | some (Value.varr l) => l.isEmpty || l.anyP falsy
      | some _ => true
      | none => false
  | _ => false

mutual

/-- The sanitizer as the claim states it: remove exactly the keys whose
value satisfies `claimBadConnect`, recurse into all other structure. -/
def claimSanitize : Value → Value
  | Value.varr items => Value.varr (claimSanitizeList items)
  | Value.vobj fields => Value.vobj (claimSanitizeFields fields)
  | v => v

def claimSanitizeList : VList → VList
  | VList.nil => VList.nil
  | VList.cons v tl => VList.cons (claimSanitize v) (claimSanitizeList tl)

def claimSanitizeFields : VFields → VFields
  | VFields.nil => VFields.nil
  | VFields.cons k v tl =>
      if claimBadConnect v then claimSanitizeFields tl
      else VFields.cons k (claimSanitize v) (claimSanitizeFields tl)

end

mutual

/-- The sanitizer as the amended claim states it: remove exactly the keys
whose value satisfies `amendedBadConnect`, recurse into all other
structure. -/
def amendedSanitize : Value → Value
  | Value.varr items => Value.varr (amendedSanitizeList items)
  | Value.vobj fields => Value.vobj (amendedSanitizeFields fields)
  | v => v

def amendedSanitizeList : VList → VList
  | VList.nil => VList.nil
  | VList.cons v tl => VList.cons (amendedSanitize v) (amendedSanitizeList tl)

def amendedSanitizeFields : VFields → VFields
  | VFields.nil => VFields.nil
  | VFields.cons k v tl =>
      if amendedBadConnect v then amendedSanitizeFields tl
      else VFields.cons k (amendedSanitize v) (amendedSanitizeFields tl)

end

mutual

/-- No string leaf anywhere in the structure satisfies `isImageUrl` (this
in particular rules out objects whose `url` property is an image URL). -/
def noImageLeaves (parse : UrlParse) : Value → Bool
  | Value.vstr s => !isImageUrl parse s
  | Value.varr items => noImageLeavesList parse items
  | Value.vobj fields => noImageLeavesFields parse fields
  | _ => true

def noImageLeavesList (parse : UrlParse) : VList → Bool
  | VList.nil => true
  | VList.cons v tl => noImageLeaves parse v && noImageLeavesList parse tl

def noImageLeavesFields (parse : UrlParse) : VFields → Bool
  | VFields.nil => true
  | VFields.cons _ v tl => noImageLeaves parse v && noImageLeavesFields parse tl

end

/-- JS `Array.isArray` on our value model (the `importData` precondition
`!Array.isArray(data)` rejects exactly the non-`varr` values). -/
def jsIsArray : Value → Bool
  | Value.varr _ => true
  | _ => false

/-- Batch-free reference processing: fold the per-record step over an
explicit list of global record indices.  Comparing `runBatches` against
`tallyRun` over `List.range n` expresses that batch boundaries are
invisible in the final tally. -/
def tallyRun (create : Nat → Option String) (idxs : List Nat) (t : Tally) : Tally :=
  idxs.foldl (fun acc j => processRecord create j acc) t

/-- Concrete input separating the source sanitizer from the claim: a key
whose value is `{connect: "x"}` — a `connect` property that is not an array
at all. -/
def ce4input : Value :=
  Value.vobj (VFields.cons ("k")
    (Value.vobj (VFields.cons ("connect") (Value.vstr ("x")) VFields.nil)) VFields.nil)

/-- A record array of `n` null records (records are irrelevant to the
tally, which consults only the per-record outcome oracle). -/
def vlistOfNulls : Nat → VList
  | 0 => VList.nil
  | n + 1 => VList.cons Value.vnull (vlistOfNulls n)

/-! ## Helper lemmas -/

theorem axiosGetModel_respond_eq (e st : Nat) (b : List Nat) (ct : Option String) :
    axiosGetModel (NetBehavior.respond e st b ct) =
      if downloadTimeoutMs < e ∨ downloadMaxBytes < b.length ∨ st ≠ 200 then none
      else some (b, ct) := by
  unfold axiosGetModel
  by_cases h1 : downloadTimeoutMs < e <;> by_cases h2 : downloadMaxBytes < b.length <;>
    by_cases h3 : st ≠ 200 <;> simp [h1, h2, h3]

theorem downloadImage_none_of_axios_none (parse : UrlParse) (uuid url : String)
    (net : NetBehavior) (h : axiosGetModel net = none) :
    downloadImage parse uuid net url = none := by
  unfold downloadImage
  split
  · rfl
  · cases hp : parse url <;> simp [h]

/-! ## Claim theorems -/

/-- C5: for every parser and string, `isImageUrl` is false whenever `isUrl`
is false, and otherwise true iff the URL's path component, compared
case-insensitively, ends with one of the fixed image extensions; the
example `"HTTP://x/a.JPG"` classifies as an image URL. -/
theorem c5_isImageUrl_classification (parse : UrlParse) (s : String) :
    (isUrl parse s = false → isImageUrl parse s = false) ∧
    (∀ u, parse s = some u →
      (isImageUrl parse s = true ↔
        ∃ ext ∈ imageExtensions, jsEndsWith (jsToLower u.pathname) ext = true)) ∧
    isImageUrl urlParseModel ("HTTP://x/a.JPG") = true := by
  refine ⟨fun h => ?_, fun u hu => ?_, by decide⟩
  · simp [isImageUrl, h]
  · have hs : isUrl parse s = true := by simp [isUrl, hu]
    simp [isImageUrl, hs, hu, List.any_eq_true]

/-- Witness for C5 at a concrete parser and URL. -/
theorem c5_isImageUrl_classification_witness :
    isImageUrl urlParseModel ("http://x/a.png") = true ↔
      ∃ ext ∈ imageExtensions,
        jsEndsWith (jsToLower (ParsedUrl.mk ("http") ("x") ("/a.png")).pathname) ext = true :=
  (c5_isImageUrl_classification urlParseModel ("http://x/a.png")).2.1
    (ParsedUrl.mk ("http") ("x") ("/a.png")) (by decide)

/-- C6: `downloadImage` is a total function into `Option FileData` (it can
never throw); it returns `none` when the url is empty or fails URL parsing,
on a transport error, when the request exceeds the 15 s timeout, when the
response exceeds 10 MiB, is not HTTP 200, or has an empty body, and when a
declared content-type header does not begin with `image/`; on success the
descriptor's filename is the random id plus the extension derived from the
URL path (`.jpg` when absent) and its MIME type is resolved from that
extension (`image/jpeg` when unknown). -/
theorem c6_downloadImage_contract (parse : UrlParse) (uuid url : String) (net : NetBehavior) :
    (url.isEmpty = true → downloadImage parse uuid net url = none) ∧
    (parse url = none → downloadImage parse uuid net url = none) ∧
    (net = NetBehavior.transportError → downloadImage parse uuid net url = none) ∧
    (∀ e st b ct, net = NetBehavior.respond e st b ct →
      (downloadTimeoutMs < e → downloadImage parse uuid net url = none) ∧
      (downloadMaxBytes < b.length → downloadImage parse uuid net url = none) ∧
      (st ≠ 200 → downloadImage parse uuid net url = none) ∧
      (b = [] → downloadImage parse uuid net url = none) ∧
      (∀ c, ct = some c → jsStartsWith c ("image/") = false →
        downloadImage parse uuid net url = none)) ∧
    (∀ u e b ct, url.isEmpty = false → parse url = some u →
      net = NetBehavior.respond e 200 b ct → e ≤ downloadTimeoutMs →
      b.length ≤ downloadMaxBytes → b ≠ [] →
      (∀ c, ct = some c → jsStartsWith c ("image/") = true) →
      downloadImage parse uuid net url =
        some ⟨b, uuid ++ (if extname u.pathname = "" then (".jpg") else extname u.pathname),
          (mimeLookup (if extname u.pathname = "" then (".jpg") else extname u.pathname)).getD
            ("image/jpeg"),
          b.length⟩) := by
  refine ⟨fun h => ?_, fun h => ?_, fun h => ?_, fun e st b ct hnet => ?_,
    fun u e b ct hurl hp hnet hto hsz hb hct => ?_⟩
  · simp [downloadImage, h]
  · cases hu : url.isEmpty <;> simp [downloadImage, hu, h]
  · exact downloadImage_none_of_axios_none parse uuid url net (by simp [h, axiosGetModel])
  · subst hnet
    refine ⟨fun h => ?_, fun h => ?_, fun h => ?_, fun h => ?_, fun c hc hc2 => ?_⟩
    · exact downloadImage_none_of_axios_none parse uuid url _
        (by rw [axiosGetModel_respond_eq]; simp [h])
    · exact downloadImage_none_of_axios_none parse uuid url _
        (by rw [axiosGetModel_respond_eq]; simp [h])
    · exact downloadImage_none_of_axios_none parse uuid url _
        (by rw [axiosGetModel_respond_eq]; simp [h])
    · subst h
      unfold downloadImage
      split
      · rfl
      · cases hp : parse url with
        | none => simp
        | some u =>
            rw [axiosGetModel_respond_eq]
            by_cases hcond : downloadTimeoutMs < e ∨ downloadMaxBytes < ([] : List Nat).length ∨ st ≠ 200
            · rw [if_pos hcond]
            · rw [if_neg hcond]
              simp
    · subst hc
      unfold downloadImage
      split
      · rfl
      · cases hp : parse url with
        | none => simp
        | some u =>
            rw [axiosGetModel_respond_eq]
            by_cases hcond : downloadTimeoutMs < e ∨ downloadMaxBytes < b.length ∨ st ≠ 200
            · rw [if_pos hcond]
            · rw [if_neg hcond]
              simp [hc2]
  · subst hnet
    have hax : axiosGetModel (NetBehavior.respond e 200 b ct) = some (b, ct) := by
      rw [axiosGetModel_respond_eq]
      simp [Nat.not_lt.2 hto, Nat.not_lt.2 hsz]
    have hbe : b.isEmpty = false := by cases b <;> simp_all
    cases ct with
    | none => simp [downloadImage, hurl, hp, hax, hbe]
    | some c => simp [downloadImage, hurl, hp, hax, hbe, hct c rfl]

/-- Witness for C6 at a concrete parser, url, and network behaviour. -/
theorem c6_downloadImage_contract_witness :
    downloadImage urlParseModel ("uid") (NetBehavior.respond 10 200 [7, 8]
        (some ("image/png"))) ("http://x/a.png") =
      some ⟨[7, 8],
        ("uid") ++ (if extname (ParsedUrl.mk ("http") ("x") ("/a.png")).pathname = "" then (".jpg")
          else extname (ParsedUrl.mk ("http") ("x") ("/a.png")).pathname),
        (mimeLookup (if extname (ParsedUrl.mk ("http") ("x") ("/a.png")).pathname = ""
          then (".jpg") else extname (ParsedUrl.mk ("http") ("x") ("/a.png")).pathname)).getD
          ("image/jpeg"),
        2⟩ :=
  (c6_downloadImage_contract urlParseModel ("uid") ("http://x/a.png")
      (NetBehavior.respond 10 200 [7, 8] (some ("image/png")))).2.2.2.2
    (ParsedUrl.mk ("http") ("x") ("/a.png")) 10 [7, 8] (some ("image/png"))
    (by decide) (by decide) rfl (by decide) (by decide) (by decide)
    (fun c hc => by cases hc; decide)

/-! ### Sanitizer lemmas -/

theorem badConnect_eq (v : Value) :
    (connectEmpty v || connectMalformed v) = amendedBadConnect v := by
  unfold connectEmpty connectMalformed amendedBadConnect
  cases v with
  | vobj fields =>
      cases h : fields.lookup ("connect") with
      | none => simp [h]
      | some c =>
          cases c with
          | varr l => cases l <;> simp [h, VList.isEmpty, VList.anyP]
          | vnull => simp [h]
          | vbool b => simp [h]
          | vnum n => simp [h]
          | vstr s => simp [h]
          | vobj fs => simp [h]
  | vnull => simp
  | vbool b => simp
  | vnum n => simp
  | vstr s => simp
  | varr l => simp

mutual

theorem sanitize_eq_amended (v : Value) :
    sanitizeRecordBeforeCreate v = amendedSanitize v := by
  cases v with
  | varr items =>
      simp only [sanitizeRecordBeforeCreate, amendedSanitize, sanitizeList_eq_amended items]
  | vobj fields =>
      simp only [sanitizeRecordBeforeCreate, amendedSanitize, sanitizeFields_eq_amended fields]
  | vnull => rfl
  | vbool b => rfl
  | vnum n => rfl
  | vstr s => rfl

theorem sanitizeList_eq_amended (l : VList) :
    sanitizeList l = amendedSanitizeList l := by
  cases l with
  | nil => rfl
  | cons v tl =>
      simp only [sanitizeList, amendedSanitizeList, sanitize_eq_amended v,
        sanitizeList_eq_amended tl]

theorem sanitizeFields_eq_amended (fs : VFields) :
    sanitizeFields fs = amendedSanitizeFields fs := by
  cases fs with
  | nil => rfl
  | cons k v tl =>
      have hb := badConnect_eq v
      cases h1 : connectEmpty v with
      | true =>
          have hb2 : amendedBadConnect v = true := by rw [← hb, h1]; simp
          rw [sanitizeFields.eq_def]
          simp [h1, amendedSanitizeFields, hb2, sanitizeFields_eq_amended tl]
      | false =>
          cases h2 : connectMalformed v with
          | true =>
              have hb2 : amendedBadConnect v = true := by rw [← hb, h1, h2]; simp
              rw [sanitizeFields.eq_def]
              simp [h1, h2, amendedSanitizeFields, hb2, sanitizeFields_eq_amended tl]
          | false =>
              have hb2 : amendedBadConnect v = false := by rw [← hb, h1, h2]; simp
              cases v with
              | varr items =>
                  simp [sanitizeFields, amendedSanitizeFields, h1, h2, hb2, amendedSanitize,
                    sanitizeList_eq_amended items, sanitizeFields_eq_amended tl]
              | vobj fields =>
                  simp [sanitizeFields, amendedSanitizeFields, h1, h2, hb2, amendedSanitize,
                    sanitizeFields_eq_amended fields, sanitizeFields_eq_amended tl]
              | vnull =>
                  simp [sanitizeFields, amendedSanitizeFields, h1, h2, hb2, amendedSanitize,
                    sanitizeFields_eq_amended tl]
              | vbool b =>
                  simp [sanitizeFields, amendedSanitizeFields, h1, h2, hb2, amendedSanitize,
                    sanitizeFields_eq_amended tl]
              | vnum n =>
                  simp [sanitizeFields, amendedSanitizeFields, h1, h2, hb2, amendedSanitize,
                    sanitizeFields_eq_amended tl]
              | vstr s =>
                  simp [sanitizeFields, amendedSanitizeFields, h1, h2, hb2, amendedSanitize,
                    sanitizeFields_eq_amended tl]

end

theorem falsy_amendedSanitize (v : Value) : falsy (amendedSanitize v) = falsy v := by
  cases v <;> rfl

theorem isEmpty_amendedSanitizeList (l : VList) :
    (amendedSanitizeList l).isEmpty = l.isEmpty := by
  cases l <;> rfl

theorem anyP_falsy_amendedSanitizeList (l : VList) :
    (amendedSanitizeList l).anyP falsy = l.anyP falsy := by
  cases l with
  | nil => rfl
  | cons v tl =>
      simp [amendedSanitizeList, VList.anyP, falsy_amendedSanitize,
        anyP_falsy_amendedSanitizeList tl]

theorem lookup_amendedSanitizeFields_none (fs : VFields) (k : String)
    (h : fs.lookup k = none) : (amendedSanitizeFields fs).lookup k = none := by
  cases fs with
  | nil => simp [amendedSanitizeFields, VFields.lookup]
  | cons k2 v tl =>
      by_cases hk : k2 = k
      · simp [VFields.lookup, hk] at h
      · have h2 : tl.lookup k = none := by simpa [VFields.lookup, hk] using h
        cases hb : amendedBadConnect v with
        | true =>
            simp [amendedSanitizeFields, hb, lookup_amendedSanitizeFields_none tl k h2]
        | false =>
            simp [amendedSanitizeFields, hb, VFields.lookup, hk,
              lookup_amendedSanitizeFields_none tl k h2]

theorem lookup_connect_amendedSanitizeFields (fs : VFields) (l : VList)
    (h : fs.lookup ("connect") = some (Value.varr l)) :
    (amendedSanitizeFields fs).lookup ("connect") =
      some (Value.varr (amendedSanitizeList l)) := by
  cases fs with
  | nil => simp [VFields.lookup] at h
  | cons k2 v tl =>
      by_cases hk : k2 = ("connect")
      · have hv : v = Value.varr l := by simpa [VFields.lookup, hk] using h
        subst hv hk
        simp [amendedSanitizeFields, amendedBadConnect, amendedSanitize, VFields.lookup]
      · have h2 : tl.lookup ("connect") = some (Value.varr l) := by
          simpa [VFields.lookup, hk] using h
        cases hb : amendedBadConnect v with
        | true =>
            simp [amendedSanitizeFields, hb, lookup_connect_amendedSanitizeFields tl l h2]
        | false =>
            simp [amendedSanitizeFields, hb, VFields.lookup, hk,
              lookup_connect_amendedSanitizeFields tl l h2]

theorem amendedBadConnect_amendedSanitize (v : Value)
    (h : amendedBadConnect v = false) :
    amendedBadConnect (amendedSanitize v) = false := by
  cases v with
  | vobj fields =>
      cases hc : fields.lookup ("connect") with
      | none =>
          simp [amendedSanitize, amendedBadConnect,
            lookup_amendedSanitizeFields_none fields _ hc]
      | some c =>
          cases c with
          | varr l =>
              have hgood : (l.isEmpty || l.anyP falsy) = false := by
                simpa [amendedBadConnect, hc] using h
              simp [amendedSanitize, amendedBadConnect,
                lookup_connect_amendedSanitizeFields fields l hc,
                isEmpty_amendedSanitizeList, anyP_falsy_amendedSanitizeList, hgood]
          | vnull => simp [amendedBadConnect, hc] at h
          | vbool b => simp [amendedBadConnect, hc] at h
          | vnum n => simp [amendedBadConnect, hc] at h
          | vstr s => simp [amendedBadConnect, hc] at h
          | vobj fs => simp [amendedBadConnect, hc] at h
  | vnull => rfl
  | vbool b => rfl
  | vnum n => rfl
  | vstr s => rfl
  | varr l => rfl

mutual

theorem amendedSanitize_idem (v : Value) :
    amendedSanitize (amendedSanitize v) = amendedSanitize v := by
  cases v with
  | varr items => simp [amendedSanitize, amendedSanitizeList_idem items]
  | vobj fields => simp [amendedSanitize, amendedSanitizeFields_idem fields]
  | vnull => rfl
  | vbool b => rfl
  | vnum n => rfl
  | vstr s => rfl

theorem amendedSanitizeList_idem (l : VList) :
    amendedSanitizeList (amendedSanitizeList l) = amendedSanitizeList l := by
  cases l with
  | nil => rfl
  | cons v tl =>
      simp [amendedSanitizeList, amendedSanitize_idem v, amendedSanitizeList_idem tl]

theorem amendedSanitizeFields_idem (fs : VFields) :
    amendedSanitizeFields (amendedSanitizeFields fs) = amendedSanitizeFields fs := by
  cases fs with
  | nil => rfl
  | cons k v tl =>
      cases hb : amendedBadConnect v with
      | true => simp [amendedSanitizeFields, hb, amendedSanitizeFields_idem tl]
      | false =>
          simp [amendedSanitizeFields, hb, amendedBadConnect_amendedSanitize v hb,
            amendedSanitize_idem v, amendedSanitizeFields_idem tl]

end

/-- C4 counterexample: the source sanitizer deletes the key `k` of
`{k: {connect: "x"}}` (its second deletion branch fires on a `connect`
value that is not an array), while the claim, which removes exactly the
keys shaped `{connect: []}` or `{connect: [falsy,...]}`, keeps it. -/
theorem c4_sanitizer_counterexample :
    sanitizeRecordBeforeCreate ce4input = Value.vobj VFields.nil ∧
    claimSanitize ce4input = ce4input ∧
    sanitizeRecordBeforeCreate ce4input ≠ claimSanitize ce4input := by
  decide

/-- C4 (amended): `sanitizeRecordBeforeCreate` removes exactly those object
keys whose value is an object with a `connect` property that is not an
array, or is an empty array, or contains a falsy element; every other key
is kept, with object/array values recursed into and scalars untouched
(this is `amendedSanitize`, written from the amended claim). -/
theorem c4_sanitizer_removal_set (v : Value) :
    sanitizeRecordBeforeCreate v = amendedSanitize v :=
  sanitize_eq_amended v

/-- C8: the sanitizer is idempotent. -/
theorem c8_sanitizer_idempotent (v : Value) :
    sanitizeRecordBeforeCreate (sanitizeRecordBeforeCreate v) =
      sanitizeRecordBeforeCreate v := by
  simp only [sanitize_eq_amended]
  exact amendedSanitize_idem v

/-! ### Resolver lemmas -/

theorem noImageLeavesFields_lookup (parse : UrlParse) (fs : VFields) (k : String) (v : Value)
    (h : noImageLeavesFields parse fs = true) (hl : fs.lookup k = some v) :
    noImageLeaves parse v = true := by
  cases fs with
  | nil => simp [VFields.lookup] at hl
  | cons k2 v2 tl =>
      have h1 : noImageLeaves parse v2 = true ∧ noImageLeavesFields parse tl = true := by
        simpa [noImageLeavesFields, Bool.and_eq_true] using h
      by_cases hk : k2 = k
      · have hv : v2 = v := by simpa [VFields.lookup, hk] using hl
        subst hv
        exact h1.1
      · have hl2 : tl.lookup k = some v := by simpa [VFields.lookup, hk] using hl
        exact noImageLeavesFields_lookup parse tl k v h1.2 hl2

mutual

theorem processObjectForImages_noImg (parse : UrlParse) (pipeline : String → Option Int)
    (v : Value) (h : noImageLeaves parse v = true) :
    processObjectForImages parse pipeline v = v := by
  cases v with
  | varr items =>
      simp [processObjectForImages,
        processList_noImg parse pipeline items (by simpa [noImageLeaves] using h)]
  | vobj fields =>
      simp [processObjectForImages,
        processFields_noImg parse pipeline fields (by simpa [noImageLeaves] using h)]
  | vnull => rfl
  | vbool b => rfl
  | vnum n => rfl
  | vstr s => rfl

theorem processList_noImg (parse : UrlParse) (pipeline : String → Option Int)
    (l : VList) (h : noImageLeavesList parse l = true) :
    processList parse pipeline l = l := by
  cases l with
  | nil => rfl
  | cons v tl =>
      have h2 : noImageLeaves parse v = true ∧ noImageLeavesList parse tl = true := by
        simpa [noImageLeavesList, Bool.and_eq_true] using h
      simp [processList, processObjectForImages_noImg parse pipeline v h2.1,
        processList_noImg parse pipeline tl h2.2]

theorem processFields_noImg (parse : UrlParse) (pipeline : String → Option Int)
    (fs : VFields) (h : noImageLeavesFields parse fs = true) :
    processFields parse pipeline fs = fs := by
  cases fs with
  | nil => rfl
  | cons k v tl =>
      have h2 : noImageLeaves parse v = true ∧ noImageLeavesFields parse tl = true := by
        simpa [noImageLeavesFields, Bool.and_eq_true] using h
      simp [processFields, processEntry_noImg parse pipeline v h2.1,
        processFields_noImg parse pipeline tl h2.2]

theorem processEntry_noImg (parse : UrlParse) (pipeline : String → Option Int)
    (v : Value) (h : noImageLeaves parse v = true) :
    processEntry parse pipeline v = v := by
  cases v with
  | vstr s =>
      have hs : isImageUrl parse s = false := by simpa [noImageLeaves] using h
      simp [processEntry, hs]
  | varr items =>
      simp [processEntry,
        processList_noImg parse pipeline items (by simpa [noImageLeaves] using h)]
  | vobj fields =>
      have hf : noImageLeavesFields parse fields = true := by simpa [noImageLeaves] using h
      cases hl : fields.lookup ("url") with
      | none => simp [processEntry, hl, processFields_noImg parse pipeline fields hf]
      | some u =>
          cases u with
          | vstr s =>
              have hs : isImageUrl parse s = false := by
                simpa [noImageLeaves] using noImageLeavesFields_lookup parse fields _ _ hf hl
              simp [processEntry, hl, hs, processFields_noImg parse pipeline fields hf]
          | vnull => simp [processEntry, hl, processFields_noImg parse pipeline fields hf]
          | vbool b => simp [processEntry, hl, processFields_noImg parse pipeline fields hf]
          | vnum n => simp [processEntry, hl, processFields_noImg parse pipeline fields hf]
          | varr l2 => simp [processEntry, hl, processFields_noImg parse pipeline fields hf]
          | vobj fs2 => simp [processEntry, hl, processFields_noImg parse pipeline fields hf]
  | vnull => rfl
  | vbool b => rfl
  | vnum n => rfl

end

/-- C3 counterexample: with the always-succeeding pipeline (download and
upload yield media id 1), an image-URL string occurring as an array element
is left unchanged by `processObjectForImages`, although the claim says any
such occurrence becomes `{connect: [1]}`. -/
theorem c3_resolver_counterexample :
    isImageUrl urlParseModel ("http://x/a.jpg") = true ∧
    processObjectForImages urlParseModel (fun _ => some 1)
        (Value.varr (VList.cons (Value.vstr ("http://x/a.jpg")) VList.nil)) =
      Value.varr (VList.cons (Value.vstr ("http://x/a.jpg")) VList.nil) ∧
    Value.varr (VList.cons (Value.vstr ("http://x/a.jpg")) VList.nil) ≠
      Value.varr (VList.cons (mediaRef 1) VList.nil) := by
  decide

/-- C3 (amended): every non-object, non-array scalar passed to
`processObjectForImages` — even an image-URL string — passes through
unchanged, and arrays recurse element-wise; an image-URL string triggers
download+upload only when it is the direct value of an object property, in
which case success replaces the value by `{connect: [mediaId]}` and any
failure retains the original string. -/
theorem c3_resolver_scalar_and_property (parse : UrlParse) (pipeline : String → Option Int) :
    (∀ v, isScalar v = true → processObjectForImages parse pipeline v = v) ∧
    (∀ l, processObjectForImages parse pipeline (Value.varr l) =
      Value.varr (processList parse pipeline l)) ∧
    (∀ v tl, processList parse pipeline (VList.cons v tl) =
      VList.cons (processObjectForImages parse pipeline v) (processList parse pipeline tl)) ∧
    (∀ k s tl id, isImageUrl parse s = true → pipeline s = some id →
      processFields parse pipeline (VFields.cons k (Value.vstr s) tl) =
        VFields.cons k (mediaRef id) (processFields parse pipeline tl)) ∧
    (∀ k s tl, isImageUrl parse s = true → pipeline s = none →
      processFields parse pipeline (VFields.cons k (Value.vstr s) tl) =
        VFields.cons k (Value.vstr s) (processFields parse pipeline tl)) := by
  refine ⟨fun v hv => ?_, fun l => ?_, fun v tl => ?_, fun k s tl id h1 h2 => ?_,
    fun k s tl h1 h2 => ?_⟩
  · cases v with
    | varr l => simp [isScalar] at hv
    | vobj fs => simp [isScalar] at hv
    | vnull => rfl
    | vbool b => rfl
    | vnum n => rfl
    | vstr s => rfl
  · simp [processObjectForImages]
  · simp [processList]
  · simp [processFields, processEntry, h1, h2]
  · simp [processFields, processEntry, h1, h2]

/-- Witness for the amended C3 at concrete inputs. -/
theorem c3_resolver_scalar_and_property_witness :
    processObjectForImages urlParseModel (fun _ => some 9) (Value.vstr ("http://x/a.jpg")) =
      Value.vstr ("http://x/a.jpg") ∧
    processFields urlParseModel (fun _ => some 9)
        (VFields.cons ("image") (Value.vstr ("http://x/a.jpg")) VFields.nil) =
      VFields.cons ("image") (mediaRef 9)
        (processFields urlParseModel (fun _ => some 9) VFields.nil) ∧
    processFields urlParseModel (fun _ => none)
        (VFields.cons ("image") (Value.vstr ("http://x/a.jpg")) VFields.nil) =
      VFields.cons ("image") (Value.vstr ("http://x/a.jpg"))
        (processFields urlParseModel (fun _ => none) VFields.nil) :=
  ⟨(c3_resolver_scalar_and_property urlParseModel (fun _ => some 9)).1
      (Value.vstr ("http://x/a.jpg")) (by decide),
   (c3_resolver_scalar_and_property urlParseModel (fun _ => some 9)).2.2.2.1
      ("image") ("http://x/a.jpg") VFields.nil 9 (by decide) rfl,
   (c3_resolver_scalar_and_property urlParseModel (fun _ => none)).2.2.2.2
      ("image") ("http://x/a.jpg") VFields.nil (by decide) rfl⟩

/-- C9: a record containing no image-URL string leaf anywhere in its
structure (hence also no object whose `url` property is an image URL) is
returned structurally equal to its input by `processObjectForImages`, for
every parser and every download/upload pipeline.  The embedding is pure, so
the input value itself is immutable by construction. -/
theorem c9_resolver_roundtrip (parse : UrlParse) (pipeline : String → Option Int)
    (v : Value) (h : noImageLeaves parse v = true) :
    processObjectForImages parse pipeline v = v :=
  processObjectForImages_noImg parse pipeline v h

/-- Witness for C9 on a concrete image-free record. -/
theorem c9_resolver_roundtrip_witness :
    processObjectForImages urlParseModel (fun _ => some 5)
        (Value.vobj (VFields.cons ("title") (Value.vstr ("A"))
          (VFields.cons ("meta") (Value.vobj (VFields.cons ("url") (Value.vstr ("/rel.png"))
            VFields.nil))
          (VFields.cons ("tags") (Value.varr (VList.cons (Value.vstr ("x")) VList.nil))
            VFields.nil)))) =
      Value.vobj (VFields.cons ("title") (Value.vstr ("A"))
        (VFields.cons ("meta") (Value.vobj (VFields.cons ("url") (Value.vstr ("/rel.png"))
          VFields.nil))
        (VFields.cons ("tags") (Value.varr (VList.cons (Value.vstr ("x")) VList.nil))
          VFields.nil))) :=
  c9_resolver_roundtrip urlParseModel (fun _ => some 5) _ (by decide)

/-! ### Orchestrator lemmas -/

theorem tallyRun_append (create : Nat → Option String) (l1 l2 : List Nat) (t : Tally) :
    tallyRun create (l1 ++ l2) t = tallyRun create l2 (tallyRun create l1 t) := by
  simp [tallyRun, List.foldl_append]

theorem processBatch_eq_tallyRun (create : Nat → Option String) (start : Nat)
    (batch : List Value) (t : Tally) :
    processBatch create start batch t =
      tallyRun create ((List.range batch.length).map (fun idx => start + idx)) t := by
  simp [processBatch, tallyRun, List.foldl_map]

theorem tallyRun_spec (create : Nat → Option String) (idxs : List Nat) (t : Tally) :
    tallyRun create idxs t =
      ⟨t.successful + idxs.countP (fun j => (create j).isNone),
       t.failed + idxs.countP (fun j => (create j).isSome),
       t.errors ++ idxs.filterMap (fun j => (create j).map (fun m => ImportError.mk j m)),
       t.created ++ idxs.filter (fun j => (create j).isNone)⟩ := by
  induction idxs generalizing t with
  | nil => simp [tallyRun]
  | cons j rest ih =>
      rw [show tallyRun create (j :: rest) t
            = tallyRun create rest (processRecord create j t) from rfl, ih]
      cases hj : create j with
      | none =>
          simp [processRecord, hj, List.countP_cons, List.filterMap_cons, List.filter_cons,
            Tally.mk.injEq]
          omega
      | some m =>
          simp [processRecord, hj, List.countP_cons, List.filterMap_cons, List.filter_cons,
            Tally.mk.injEq]
          omega

theorem batchSlice_length_full (data : List Value) (i : Nat)
    (h : i * batchSize + batchSize ≤ data.length) :
    (batchSlice data i).length = batchSize := by
  simp only [batchSlice, List.length_take, List.length_drop]
  omega

theorem batchSlice_length_lastb (data : List Value) (i : Nat)
    (h2 : data.length ≤ i * batchSize + batchSize) :
    (batchSlice data i).length = data.length - i * batchSize := by
  simp only [batchSlice, List.length_take, List.length_drop]
  omega

theorem batchLoop_eq (create : Nat → Option String) (data : List Value) (m : Nat) :
    m * batchSize ≤ data.length →
    (List.range m).foldl
        (fun t i => processBatch create (i * batchSize) (batchSlice data i) t) Tally.init =
      tallyRun create (List.range (m * batchSize)) Tally.init := by
  induction m with
  | zero => intro h; simp [tallyRun]
  | succ m ih =>
      intro h
      have hsm : (m + 1) * batchSize = m * batchSize + batchSize := by rw [Nat.succ_mul]
      have hm : m * batchSize ≤ data.length := by omega
      rw [List.range_succ, List.foldl_append, ih hm]
      simp only [List.foldl_cons, List.foldl_nil]
      rw [processBatch_eq_tallyRun]
      have hlen : (batchSlice data m).length = batchSize :=
        batchSlice_length_full data m (by omega)
      rw [hlen, ← tallyRun_append]
      congr 1
      rw [hsm, List.range_add]

theorem runBatches_eq_tallyRun (create : Nat → Option String) (data : List Value) :
    runBatches create data = tallyRun create (List.range data.length) Tally.init := by
  unfold runBatches
  rcases Nat.eq_zero_or_pos data.length with h0 | hpos
  · rw [h0]
    have hz : numBatches 0 = 0 := rfl
    simp [hz, tallyRun]
  · obtain ⟨m, hm1, hm2, hm3⟩ : ∃ m, numBatches data.length = m + 1 ∧
        m * batchSize ≤ data.length ∧ data.length ≤ m * batchSize + batchSize := by
      refine ⟨numBatches data.length - 1, ?_, ?_, ?_⟩ <;>
        simp only [numBatches, batchSize] <;> omega
    rw [hm1, List.range_succ, List.foldl_append, batchLoop_eq create data m hm2]
    simp only [List.foldl_cons, List.foldl_nil]
    rw [processBatch_eq_tallyRun, batchSlice_length_lastb data m hm3, ← tallyRun_append]
    congr 1
    have hsum : m * batchSize + (data.length - m * batchSize) = data.length := by omega
    rw [← List.range_add, hsum]

theorem countP_none_add_countP_some (create : Nat → Option String) (l : List Nat) :
    l.countP (fun j => (create j).isNone) + l.countP (fun j => (create j).isSome)
      = l.length := by
  induction l with
  | nil => rfl
  | cons j rest ih =>
      cases hj : create j <;> simp [List.countP_cons, hj] <;> omega

theorem length_filterMap_create (create : Nat → Option String) (l : List Nat) :
    (l.filterMap (fun j => (create j).map (fun m => ImportError.mk j m))).length
      = l.countP (fun j => (create j).isSome) := by
  induction l with
  | nil => rfl
  | cons j rest ih =>
      cases hj : create j <;> simp [List.filterMap_cons, List.countP_cons, hj, ih]

theorem map_index_filterMap_create (create : Nat → Option String) (l : List Nat) :
    ((l.filterMap (fun j => (create j).map (fun m => ImportError.mk j m))).map
        ImportError.index)
      = l.filter (fun j => (create j).isSome) := by
  induction l with
  | nil => rfl
  | cons j rest ih =>
      cases hj : create j <;> simp [List.filterMap_cons, List.filter_cons, hj, ih]

/-- Inversion of a successful `importData` call: the preconditions held and
the payload is the batch-loop tally over the records. -/
theorem importData_ok_inv (knownTypes : String → Bool) (create : Nat → Option String)
    (contentType : String) (items : VList) (r : ImportResult) (created : List Nat)
    (h : importData knownTypes create contentType (Value.varr items)
      = Except.ok (r, created)) :
    r = { contentType := contentType, totalRecords := items.toList.length,
          successful := (runBatches create items.toList).successful,
          failed := (runBatches create items.toList).failed,
          errors := (runBatches create items.toList).errors,
          processedImages := 0, skippedImages := 0 } ∧
      created = (runBatches create items.toList).created := by
  unfold importData at h
  by_cases h1 : contentType.isEmpty
  · simp [h1] at h
  · by_cases h2 : knownTypes contentType
    · simp only [h1, h2, Bool.not_true, if_false, Bool.false_eq_true, ite_false,
        Except.ok.injEq, Prod.mk.injEq] at h
      exact ⟨h.1.symm, h.2.symm⟩
    · simp [h1, h2] at h

/-- C1: for every accepted call, the result satisfies
`successful + failed = totalRecords` with `totalRecords` the input length,
`errors.length = failed`, and the error list is exactly the failing records
in input order: indices are unique, within `[0, totalRecords)`, and are the
records' original zero-based positions in the input sequence. -/
theorem c1_importData_result_invariants (knownTypes : String → Bool)
    (create : Nat → Option String) (contentType : String) (items : VList)
    (r : ImportResult) (created : List Nat)
    (h : importData knownTypes create contentType (Value.varr items)
      = Except.ok (r, created)) :
    r.totalRecords = items.toList.length ∧
    r.successful + r.failed = r.totalRecords ∧
    r.errors.length = r.failed ∧
    r.errors = (List.range r.totalRecords).filterMap
      (fun j => (create j).map (fun m => ImportError.mk j m)) ∧
    (r.errors.map ImportError.index).Nodup ∧
    ∀ e ∈ r.errors, e.index < r.totalRecords ∧ create e.index = some e.message := by
  obtain ⟨hr, -⟩ := importData_ok_inv knownTypes create contentType items r created h
  subst hr
  simp only [runBatches_eq_tallyRun, tallyRun_spec, Tally.init, Nat.zero_add,
    List.nil_append]
  refine ⟨by trivial, ?_, ?_, by trivial, ?_, ?_⟩
  · exact (countP_none_add_countP_some create (List.range items.toList.length)).trans
      (List.length_range items.toList.length)
  · exact length_filterMap_create create (List.range items.toList.length)
  · rw [map_index_filterMap_create]
    exact (List.nodup_range items.toList.length).filter _
  · intro e he
    obtain ⟨j, hjmem, hje⟩ := List.mem_filterMap.mp he
    cases hj : create j with
    | none =>
        rw [hj] at hje
        exact absurd hje (by simp)
    | some m =>
        rw [hj] at hje
        simp only [Option.map_some'] at hje
        cases hje
        exact ⟨List.mem_range.mp hjmem, hj⟩

/-- Witness for C1: 22 records, persistence throwing only at index 21 —
an index in the second batch, reported with its original position. -/
theorem c1_importData_result_invariants_witness :
    (21 : Nat) + 1 = 22 ∧ [ImportError.mk 21 ("boom")].length = 1 :=
  ⟨(c1_importData_result_invariants (fun _ => true)
      (fun j => if j = 21 then some ("boom") else none) ("article") (vlistOfNulls 22)
      { contentType := ("article"), totalRecords := 22, successful := 21, failed := 1,
        errors := [ImportError.mk 21 ("boom")], processedImages := 0, skippedImages := 0 }
      (List.range 21) rfl).2.1,
   (c1_importData_result_invariants (fun _ => true)
      (fun j => if j = 21 then some ("boom") else none) ("article") (vlistOfNulls 22)
      { contentType := ("article"), totalRecords := 22, successful := 21, failed := 1,
        errors := [ImportError.mk 21 ("boom")], processedImages := 0, skippedImages := 0 }
      (List.range 21) rfl).2.2.1⟩

theorem batchesOf_flatten_aux (data : List Value) (m : Nat) :
    m * batchSize ≤ data.length →
    ((List.range m).map (fun i => batchSlice data i)).flatten = data.take (m * batchSize) := by
  induction m with
  | zero => intro h; simp
  | succ m ih =>
      intro h
      have hsm : (m + 1) * batchSize = m * batchSize + batchSize := by rw [Nat.succ_mul]
      have hm : m * batchSize ≤ data.length := by omega
      rw [List.range_succ, List.map_append, List.flatten_append, ih hm]
      simp only [List.map_cons, List.map_nil, List.flatten_cons, List.flatten_nil,
        List.append_nil]
      rw [hsm, List.take_add]
      congr 1
      unfold batchSlice
      congr 1
      omega

theorem batchesOf_flatten (data : List Value) : (batchesOf data).flatten = data := by
  rcases Nat.eq_zero_or_pos data.length with h0 | hpos
  · have hnil : data = [] := List.length_eq_zero.mp h0
    subst hnil
    rfl
  · obtain ⟨m, hm1, hm2, hm3⟩ : ∃ m, numBatches data.length = m + 1 ∧
        m * batchSize ≤ data.length ∧ data.length ≤ m * batchSize + batchSize := by
      refine ⟨numBatches data.length - 1, ?_, ?_, ?_⟩ <;>
        simp only [numBatches, batchSize] <;> omega
    unfold batchesOf
    rw [hm1, List.range_succ, List.map_append, List.flatten_append,
      batchesOf_flatten_aux data m hm2]
    simp only [List.map_cons, List.map_nil, List.flatten_cons, List.flatten_nil,
      List.append_nil]
    unfold batchSlice
    have hmin : min (m * batchSize + batchSize) data.length - m * batchSize
        = data.length - m * batchSize := by omega
    rw [hmin, ← List.take_add]
    have hsum : m * batchSize + (data.length - m * batchSize) = data.length := by omega
    rw [hsum, List.take_length]

theorem batchesOf_size_le (data : List Value) (b : List Value) (hb : b ∈ batchesOf data) :
    b.length ≤ batchSize := by
  unfold batchesOf at hb
  obtain ⟨i, hi, hbi⟩ := List.mem_map.mp hb
  subst hbi
  unfold batchSlice
  simp only [List.length_take, List.length_drop]
  omega

set_option maxRecDepth 8000 in
/-- C2 counterexample: the source fixes `batchSize = 20`, so a 120-record
input is processed in 6 batches of 20, not in 3 batches of 50, 50 and 20 as
the claim states. -/
theorem c2_batching_counterexample :
    numBatches 120 = 6 ∧ numBatches 120 ≠ 3 ∧
    (batchesOf (List.replicate 120 Value.vnull)).map List.length = List.replicate 6 20 ∧
    (batchesOf (List.replicate 120 Value.vnull)).map List.length ≠ [50, 50, 20] := by
  decide

/-- C2 (amended): `importData` partitions the input into contiguous,
order-preserving sequential batches of fixed maximum size 20 (which is at
most 50); a 120-record input is processed in exactly 6 batches of size 20;
and batch boundaries do not affect the final tally — the batched loop
equals the batch-free fold over all original indices, so aggregate counts
and error indices are unchanged. -/
theorem c2_batching_partition (data : List Value) :
    (batchesOf data).flatten = data ∧
    (∀ b ∈ batchesOf data, b.length ≤ batchSize) ∧
    batchSize = 20 ∧
    (batchesOf (List.replicate 120 Value.vnull)).map List.length = List.replicate 6 20 ∧
    (∀ create, runBatches create data = tallyRun create (List.range data.length) Tally.init) :=
  ⟨batchesOf_flatten data, fun b hb => batchesOf_size_le data b hb, rfl, by decide,
   fun create => runBatches_eq_tallyRun create data⟩

/-- Witness for the amended C2 at a concrete input. -/
theorem c2_batching_partition_witness :
    ([Value.vnull] : List Value).length ≤ batchSize :=
  (c2_batching_partition [Value.vnull]).2.1 [Value.vnull] (by decide)

/-- C7: each precondition violation — empty content type id, non-array
records value, or a content type unknown to the host store — makes
`importData` throw (the `Except.error` branch) for every outcome oracle, so
no record is processed and nothing is persisted: the error carries no
`ImportResult` and no created-record log, and is independent of `create`. -/
theorem c7_importData_preconditions (knownTypes : String → Bool)
    (create : Nat → Option String) :
    (∀ data, importData knownTypes create ("") data =
      Except.error ("Invalid parameters: contentType and data array are required")) ∧
    (∀ contentType data, jsIsArray data = false →
      importData knownTypes create contentType data =
        Except.error ("Invalid parameters: contentType and data array are required")) ∧
    (∀ contentType items, contentType.isEmpty = false → knownTypes contentType = false →
      importData knownTypes create contentType (Value.varr items) =
        Except.error ("Content type \"" ++ contentType ++ "\" not found")) := by
  refine ⟨fun data => ?_, fun contentType data hd => ?_, fun contentType items h1 h2 => ?_⟩
  · cases data <;> rfl
  · cases data with
    | varr items => simp [jsIsArray] at hd
    | vnull => rfl
    | vbool b => rfl
    | vnum n => rfl
    | vstr s => rfl
    | vobj fs => rfl
  · simp [importData, h1, h2]

/-- Witness for C7 at concrete violating inputs. -/
theorem c7_importData_preconditions_witness :
    importData (fun _ => true) (fun _ => none) ("") (Value.varr VList.nil) =
      Except.error ("Invalid parameters: contentType and data array are required") ∧
    importData (fun _ => true) (fun _ => none) ("article") Value.vnull =
      Except.error ("Invalid parameters: contentType and data array are required") ∧
    importData (fun _ => false) (fun _ => none) ("article") (Value.varr VList.nil) =
      Except.error ("Content type \"" ++ ("article") ++ "\" not found") :=
  ⟨(c7_importData_preconditions (fun _ => true) (fun _ => none)).1 (Value.varr VList.nil),
   (c7_importData_preconditions (fun _ => true) (fun _ => none)).2.1 ("article")
     Value.vnull (by decide),
   (c7_importData_preconditions (fun _ => false) (fun _ => none)).2.2 ("article")
     VList.nil (by decide) rfl⟩

/-- C10: with a valid, known content type and an empty records array,
`importData` runs zero batches, persists nothing (empty created log), and
returns totals of zero with an empty error list. -/
theorem c10_importData_empty (knownTypes : String → Bool) (create : Nat → Option String)
    (contentType : String) (h1 : contentType.isEmpty = false)
    (h2 : knownTypes contentType = true) :
    numBatches 0 = 0 ∧
    importData knownTypes create contentType (Value.varr VList.nil) =
      Except.ok
        ({ contentType := contentType, totalRecords := 0, successful := 0,
           failed := 0, errors := [], processedImages := 0, skippedImages := 0 }, []) := by
  refine ⟨rfl, ?_⟩
  simp [importData, h1, h2, VList.toList, runBatches, numBatches, batchSize, Tally.init]

/-- Witness for C10 at a concrete known content type. -/
theorem c10_importData_empty_witness :
    numBatches 0 = 0 ∧
    importData (fun _ => true) (fun _ => none) ("article") (Value.varr VList.nil) =
      Except.ok
        ({ contentType := ("article"), totalRecords := 0, successful := 0,
           failed := 0, errors := [], processedImages := 0, skippedImages := 0 }, []) :=
  c10_importData_empty (fun _ => true) (fun _ => none) ("article") (by decide) rfl

end ImportPlugin
